import Mathlib

/-!
Verification of the response-normalization and validation layer of the
google-maps-mcp-server repository (src/server.py, src/maps_agent/server.py,
src/maps_agent/gmaps/*.py).

The shapers operate on JSON-like Python values returned by the provider
client.  `PyVal` is a shallow embedding of that value universe; numbers are
modelled as integers (the shapers only pass numeric fields through, they
never compute with them).  Fallible Python operations (subscripting a dict
or list, attribute access on a non-dict) are embedded in the `Except PyErr`
monad; a Python function that falls off the end without a return yields
`Option.none`.
-/

inductive PyVal where
  | none : PyVal
  | int : Int → PyVal
  | str : String → PyVal
  | list : List PyVal → PyVal
  | dict : List (String × PyVal) → PyVal

inductive PyErr where
  | keyError : PyErr
  | indexError : PyErr
  | typeError : PyErr
  | attributeError : PyErr
deriving DecidableEq

/-- Python truthiness of the modelled values: None, 0, empty string, empty
list and empty dict are falsy, everything else is truthy. -/
def PyVal.truthy : PyVal → Bool
  | .none => false
  | .int n => !(n == 0)
  | .str s => !(s == "")
  | .list l => !l.isEmpty
  | .dict d => !d.isEmpty

/-- Is the value Python `None` (used for the null-dropping filter). -/
def PyVal.isNone : PyVal → Bool
  | .none => true
  | _ => false

/-- Python `v == "lit"` for a value and a string literal: true exactly for
the equal string (a value of another type never equals a string). -/
def pyEqStr : PyVal → String → Bool
  | .str s, t => s == t
  | _, _ => false

/-- Lookup of a key in the association list backing a dict (Python dicts
have unique keys; the first binding is the binding). -/
def pyLookup : List (String × PyVal) → String → Option PyVal
  | [], _ => Option.none
  | (k, v) :: kvs, key => if k = key then some v else pyLookup kvs key

/-- Python `d.get(key, default)`: defaulted lookup, AttributeError when the
receiver is not a dict. -/
def pyGet (v : PyVal) (key : String) (dflt : PyVal) : Except PyErr PyVal :=
  match v with
  | .dict d => .ok ((pyLookup d key).getD dflt)
  | _ => .error .attributeError

/-- Python `v[key]` with a string key: KeyError when absent, TypeError when
the receiver is not a dict. -/
def pyGetItem (v : PyVal) (key : String) : Except PyErr PyVal :=
  match v with
  | .dict d =>
    match pyLookup d key with
    | some x => .ok x
    | Option.none => .error .keyError
  | _ => .error .typeError

/-- Python `v[0]`: first element of a list (IndexError when empty); on a
string the first character as a one-character string (IndexError when the
string is empty); on a string-keyed dict an integer subscript raises
KeyError; TypeError otherwise. -/
def pyIndex0 : PyVal → Except PyErr PyVal
  | .list [] => .error .indexError
  | .list (x :: _) => .ok x
  | .dict _ => .error .keyError
  | .str s =>
    match s.data with
    | [] => .error .indexError
    | c :: _ => .ok (.str (String.singleton c))
  | _ => .error .typeError

/-- Is `needle` a contiguous sublist of the second argument. -/
def subList (needle : List Char) : List Char → Bool
  | [] => needle.isEmpty
  | c :: cs => needle.isPrefixOf (c :: cs) || subList needle cs

/-- Does the list contain the given string as an element (a value of
another type never equals a string, so only `str` elements are compared). -/
def listHasStr : List PyVal → String → Bool
  | [], _ => false
  | .str s :: vs, key => s == key || listHasStr vs key
  | _ :: vs, key => listHasStr vs key

/-- Python `key in v`: key test on a dict, membership on a list, substring
test on a string, TypeError otherwise. -/
def pyContains (v : PyVal) (key : String) : Except PyErr Bool :=
  match v with
  | .dict d => .ok (pyLookup d key).isSome
  | .list l => .ok (listHasStr l key)
  | .str s => .ok (subList key.data s.data)
  | _ => .error .typeError

/-- Iterating a Python value with a `for` loop: modelled for lists (the only
iterable the shapers receive); other types are modelled as TypeError. -/
def asList : PyVal → Except PyErr (List PyVal)
  | .list l => .ok l
  | _ => .error .typeError

/-- A value expected to be a string (the argument of `re.sub`): TypeError
otherwise. -/
def asStr : PyVal → Except PyErr String
  | .str s => .ok s
  | _ => .error .typeError

/-- Python `d[key] = v` on a dict: an existing key keeps its position and
gets the new value, a new key is appended at the end (insertion order). -/
def pyDictSet : List (String × PyVal) → String → PyVal → List (String × PyVal)
  | [], key, v => [(key, v)]
  | (k, w) :: kvs, key, v =>
    if k = key then (k, v) :: kvs else (k, w) :: pyDictSet kvs key v

/-- One hexadecimal digit, lower case, as `json.dumps` prints escapes. -/
def hexDigit (n : Nat) : Char :=
  if n < 10 then Char.ofNat (48 + n) else Char.ofNat (87 + n)

/-- A four-digit hexadecimal rendering of a code unit below 0x10000. -/
def hex4 (n : Nat) : String :=
  String.mk [hexDigit (n / 4096 % 16), hexDigit (n / 256 % 16),
             hexDigit (n / 16 % 16), hexDigit (n % 16)]

/-- The escape of one character inside a JSON string, as `json.dumps` with
its default `ensure_ascii=True` produces it (non-ASCII characters beyond the
basic multilingual plane become surrogate pairs). -/
def jsonEscapeChar (c : Char) : String :=
  if c = '"' then "\\\""
  else if c = '\\' then "\\\\"
  else if c = '\n' then "\\n"
  else if c = '\t' then "\\t"
  else if c = '\r' then "\\r"
  else if c.toNat = 8 then "\\b"
  else if c.toNat = 12 then "\\f"
  else if c.toNat < 32 then "\\u" ++ hex4 c.toNat
  else if c.toNat < 127 then String.singleton c
  else if c.toNat < 65536 then "\\u" ++ hex4 c.toNat
  else
    "\\u" ++ hex4 (55296 + (c.toNat - 65536) / 1024) ++
    "\\u" ++ hex4 (56320 + (c.toNat - 65536) % 1024)

/-- A JSON string literal for `s`: quotes around the escaped characters. -/
def jsonQuote (s : String) : String :=
  "\"" ++ String.join (s.data.map jsonEscapeChar) ++ "\""

mutual

/-- `json.dumps(v, separators=(',', ':'))`: compact JSON with no extra
whitespace, dict entries in insertion order. -/
def jsonDumps : PyVal → String
  | .none => "null"
  | .int n => toString n
  | .str s => jsonQuote s
  | .list l => "[" ++ jsonDumpsList l ++ "]"
  | .dict d => "\x7b" ++ jsonDumpsDict d ++ "\x7d"

/-- The comma-separated items of a JSON array. -/
def jsonDumpsList : List PyVal → String
  | [] => ""
  | [v] => jsonDumps v
  | v :: v' :: vs => jsonDumps v ++ "," ++ jsonDumpsList (v' :: vs)

/-- The comma-separated `"key":value` entries of a JSON object. -/
def jsonDumpsDict : List (String × PyVal) → String
  | [] => ""
  | [(k, v)] => jsonQuote k ++ ":" ++ jsonDumps v
  | (k, v) :: kv :: kvs =>
    jsonQuote k ++ ":" ++ jsonDumps v ++ "," ++ jsonDumpsDict (kv :: kvs)

end

/-! ## src/server.py — the FastMCP Google Maps server

Each tool validates its enum parameters, invokes the provider client once
and shapes the JSON response.  The provider call is abstracted by passing
the response the provider would return as the `resp` argument; the Bool in
the result of the three tools with enum validation records whether the
provider client was invoked on that call. -/

namespace Server

def allowed_modes : List String := ["driving", "walking", "bicycling", "transit"]

/-- The AssertionError message of `assert_mode` in src/server.py: it names
the offending value and the allowed set, as the f-string formats them. -/
def mode_error_msg (mode : String) : String :=
  "ERROR: '" ++ mode ++ "' is not one of the allowed modes: " ++
    "['driving', 'walking', 'bicycling', 'transit']"

def allowed_input_types : List String := ["textquery", "phonenumber"]

/-- The AssertionError message of `assert_input_type` in src/server.py
(the typo "inpute" is in the source). -/
def input_type_error_msg (input_type : String) : String :=
  "ERROR: '" ++ input_type ++ "' is not one of the allowed inpute types: " ++
    "['textquery', 'phonenumber']"

/-- The inner loop of get_directions over the steps of one leg: each step
contributes its html_instructions verbatim (src/server.py applies no
normalizer) and the text of its distance and duration. -/
def directions_steps_inner : List PyVal → List PyVal → Except PyErr (List PyVal)
  | [], acc => .ok acc
  | step :: steps, acc => do
    let instr ← pyGetItem step "html_instructions"
    let d ← pyGetItem step "distance"
    let dt ← pyGetItem d "text"
    let u ← pyGetItem step "duration"
    let ut ← pyGetItem u "text"
    directions_steps_inner steps
      (acc ++ [PyVal.dict [("instruction", instr), ("distance", dt), ("duration", ut)]])

/-- The outer loop of get_directions over all legs of the chosen route. -/
def directions_steps : List PyVal → List PyVal → Except PyErr (List PyVal)
  | [], acc => .ok acc
  | leg :: legs, acc => do
    let steps ← pyGetItem leg "steps"
    let stepsL ← asList steps
    let acc2 ← directions_steps_inner stepsL acc
    directions_steps legs acc2

/-- The body of get_directions after validation: first route, summary and
first-leg totals by direct subscripting, then the flattened steps of all
legs of that route. -/
def get_directions_body (resp : PyVal) : Except PyErr (Option String) :=
  if resp.truthy then do
    let shortest_route ← pyIndex0 resp
    let summary ← pyGetItem shortest_route "summary"
    let legs ← pyGetItem shortest_route "legs"
    let leg0 ← pyIndex0 legs
    let dist ← pyGetItem leg0 "distance"
    let total_distance ← pyGetItem dist "text"
    let dur ← pyGetItem leg0 "duration"
    let total_duration ← pyGetItem dur "text"
    let legsL ← asList legs
    let steps ← directions_steps legsL []
    pure (some (jsonDumps (.dict
      [("summary", summary), ("total_distance", total_distance),
       ("total_duration", total_duration), ("steps", .list steps)])))
  else
    pure (some "No directions found for the specified locations.")

/-- src/server.py get_directions: an invalid mode returns the structured
error payload before the provider is invoked; otherwise the provider is
invoked and the response shaped. -/
def get_directions (mode : String) (resp : PyVal) :
    Except PyErr (Option String) × Bool :=
  if mode ∈ allowed_modes then
    (get_directions_body resp, true)
  else
    (.ok (some (jsonDumps (.dict [("error", .str (mode_error_msg mode))]))), false)

/-- The body of get_distance after validation: defaulted access to rows and
elements, membership checks for distance and duration, the ZERO_RESULTS
status check, then the two text fields. -/
def get_distance_body (resp : PyVal) : Except PyErr (Option String) :=
  if resp.truthy then do
    let rows ← pyGet resp "rows" (.list [])
    if rows.truthy = false then
      pure (some "No distance information found for the specified locations.")
    else do
      let row0 ← pyIndex0 rows
      let elements ← pyGet row0 "elements" (.list [])
      if elements.truthy = false then
        pure (some "No distance information found for the specified locations.")
      else do
        let el0 ← pyIndex0 elements
        let hasDist ← pyContains el0 "distance"
        if hasDist = false then
          pure (some "No distance information found for the specified locations.")
        else do
          let hasDur ← pyContains el0 "duration"
          if hasDur = false then
            pure (some "No distance information found for the specified locations.")
          else do
            let element ← pyIndex0 elements
            let status ← pyGet element "status" PyVal.none
            if pyEqStr status "ZERO_RESULTS" then
              pure (some "No distance information found for the specified locations (ZERO_RESULTS).")
            else do
              let d ← pyGetItem element "distance"
              let dt ← pyGetItem d "text"
              let u ← pyGetItem element "duration"
              let ut ← pyGetItem u "text"
              pure (some (jsonDumps (.dict
                [("total_distance", dt), ("total_duration", ut)])))
  else
    pure (some "No distance information found for the specified locations.")

/-- src/server.py get_distance: an invalid mode returns the structured
error payload before the provider is invoked. -/
def get_distance (mode : String) (resp : PyVal) :
    Except PyErr (Option String) × Bool :=
  if mode ∈ allowed_modes then
    (get_distance_body resp, true)
  else
    (.ok (some (jsonDumps (.dict [("error", .str (mode_error_msg mode))]))), false)

/-- src/server.py get_geocode: first result, then direct subscripting of
geometry, location, lat and lng. -/
def get_geocode (resp : PyVal) : Except PyErr (Option String) :=
  if resp.truthy then do
    let geocode ← pyIndex0 resp
    let geometry ← pyGetItem geocode "geometry"
    let location ← pyGetItem geometry "location"
    let lat ← pyGetItem location "lat"
    let lng ← pyGetItem location "lng"
    pure (some (jsonDumps (.dict [("lat", lat), ("lng", lng)])))
  else
    pure (some "Address not found")

/-- The output dict find_place builds from the first candidate: direct
subscripting for every field except rating, which is defaulted to None. -/
def find_place_output (place : PyVal) : Except PyErr (Option String) := do
  let name ← pyGetItem place "name"
  let place_id ← pyGetItem place "place_id"
  let formatted_address ← pyGetItem place "formatted_address"
  let geometry ← pyGetItem place "geometry"
  let location ← pyGetItem geometry "location"
  let types ← pyGetItem place "types"
  let rating ← pyGet place "rating" PyVal.none
  pure (some (jsonDumps (.dict
    [("name", name), ("place_id", place_id),
     ("formatted_address", formatted_address), ("location", location),
     ("types", types), ("rating", rating)])))

/-- The body of find_place after validation: the candidates default is an
empty dict, `candidates[0]` is guarded by `except IndexError` only, and the
candidate fields are read by direct subscripting (rating excepted).  A falsy
response falls off the end of the function, returning Python None. -/
def find_place_body (resp : PyVal) : Except PyErr (Option String) :=
  if resp.truthy then do
    let candidates ← pyGet resp "candidates" (.dict [])
    match pyIndex0 candidates with
    | .error .indexError => pure (some "No such place found")
    | .error e => .error e
    | .ok place => find_place_output place
  else
    pure Option.none

/-- src/server.py find_place: an invalid input_type returns the structured
error payload before the provider is invoked. -/
def find_place (input_type : String) (resp : PyVal) :
    Except PyErr (Option String) × Bool :=
  if input_type ∈ allowed_input_types then
    (find_place_body resp, true)
  else
    (.ok (some (jsonDumps (.dict [("error", .str (input_type_error_msg input_type))]))), false)

/-- The loop of place_nearby over the returned candidates: each candidate
is subscripted directly for name and place_id and written into the output
dict, later names overwriting earlier ones. -/
def place_nearby_loop : List PyVal → List (String × PyVal) →
    Except PyErr (List (String × PyVal))
  | [], output => .ok output
  | place :: places, output => do
    let nameV ← pyGetItem place "name"
    let place_name ← asStr nameV
    let place_id ← pyGetItem place "place_id"
    place_nearby_loop places (pyDictSet output place_name place_id)

/-- src/server.py place_nearby.  The loop runs over
`range(len(results.get('results', {})))` with integer subscripting, so a
list iterates its elements in order, the empty-dict default iterates
nothing, a non-empty dict raises KeyError at index 0, a non-empty string
raises TypeError at `place['name']`, and other values raise TypeError at
`len`. -/
def place_nearby (resp : PyVal) : Except PyErr (Option String) :=
  if resp.truthy then do
    let places ← pyGet resp "results" (.dict [])
    let output ←
      match places with
      | .list l => place_nearby_loop l []
      | .dict [] => .ok []
      | .dict (_ :: _) => .error .keyError
      | .str "" => .ok []
      | .str _ => .error .typeError
      | _ => .error .typeError
    pure (some (jsonDumps (.dict output)))
  else
    pure (some "Nothing nearby that matches the search criteria was found.")

/-- src/server.py place_details: defaulted access throughout, None-valued
fields dropped, a falsy name after the drop yields the essentials-missing
sentinel, user_ratings_total defaults to 0. -/
def place_details (resp : PyVal) : Except PyErr (Option String) :=
  if resp.truthy then do
    let details ← pyGet resp "result" (.dict [])
    if details.truthy = false then
      pure (some "No details found for the specified place.")
    else do
      let name ← pyGet details "name" PyVal.none
      let formatted_address ← pyGet details "formatted_address" PyVal.none
      let formatted_phone_number ← pyGet details "formatted_phone_number" PyVal.none
      let website ← pyGet details "website" PyVal.none
      let types ← pyGet details "types" PyVal.none
      let rating ← pyGet details "rating" PyVal.none
      let user_ratings_total ← pyGet details "user_ratings_total" (PyVal.int 0)
      let output :=
        [("name", name), ("formatted_address", formatted_address),
         ("formatted_phone_number", formatted_phone_number),
         ("website", website), ("types", types), ("rating", rating),
         ("user_ratings_total", user_ratings_total)]
      let output := output.filter (fun kv => !kv.2.isNone)
      if ((pyLookup output "name").getD PyVal.none).truthy = false then
        pure (some "Essential place details (e.g. name) are missing.")
      else
        pure (some (jsonDumps (.dict output)))
  else
    pure (some "No such place found.")

end Server

/-! ## The text normalizer `strip_html_regex`

src/maps_agent/server.py (and the identical copies in
src/maps_agent/gmaps/directions_v2.py and geocoding.py) define

    clean = re.compile('<.*?>')
    temp = re.sub(clean, ' ', html_text)
    final = re.sub(r' {2,}', ' ', temp)

`re.sub` with the non-greedy pattern `<.*?>` scans left to right; at a `<`
the shortest match runs to the first following `>`, where `.` matches any
character except a newline; the match is replaced by one space and the scan
resumes after the `>`.  When no `>` follows before a newline or the end,
the `<` (and everything buffered after it, none of which can start a match
ending before that newline) is emitted verbatim.  The second substitution
replaces every maximal run of two or more spaces by a single space, which
agrees with collapsing every maximal run of spaces to one space. -/

/-- The suffix after the first `>` of the list, provided no newline comes
first: the remainder of a non-greedy `<.*?>` match attempt. -/
def splitAtGt : List Char → Option (List Char)
  | [] => Option.none
  | c :: cs => if c = '>' then some cs else if c = '\n' then Option.none else splitAtGt cs

/-- The `<.*?>` substitution as a left-to-right scanner.  Outside a tag
(`buf = none`) characters are copied; a `<` opens a buffered tag attempt.
Inside (`buf = some stack`, the buffered characters in reverse) a `>`
completes the match and emits one space, a newline aborts the attempt and
emits the buffer verbatim (no `<` inside it can start a match before this
newline), and any other character is buffered. -/
def tagSubAux : List Char → Option (List Char) → List Char
  | [], Option.none => []
  | [], some buf => buf.reverse
  | c :: cs, Option.none =>
    if c = '<' then tagSubAux cs (some [c]) else c :: tagSubAux cs Option.none
  | c :: cs, some buf =>
    if c = '>' then ' ' :: tagSubAux cs Option.none
    else if c = '\n' then buf.reverse ++ c :: tagSubAux cs Option.none
    else tagSubAux cs (some (c :: buf))

/-- `re.sub('<.*?>', ' ', text)` on the character list of `text`. -/
def tagSub (l : List Char) : List Char := tagSubAux l Option.none

/-- `re.sub(r' {2,}', ' ', text)`: every maximal run of spaces becomes a
single space (a run of one is already a single space). -/
def spaceSub : List Char → List Char
  | [] => []
  | [c] => [c]
  | c₁ :: c₂ :: cs =>
    if c₁ = ' ' ∧ c₂ = ' ' then spaceSub (c₂ :: cs)
    else c₁ :: spaceSub (c₂ :: cs)

/-- src/maps_agent/server.py strip_html_regex: strip HTML tags, then reduce
runs of blank spaces to one. -/
def strip_html_regex (html_text : String) : String :=
  String.mk (spaceSub (tagSub html_text.data))

/-! ## src/maps_agent/server.py — the near-duplicate directions tool

This variant differs from src/server.py get_directions in two ways: an
invalid mode is only printed (execution continues and the provider is
still invoked), and each step instruction passes through strip_html_regex;
the output also carries no summary field. -/

namespace MapsAgent

/-- The inner loop over the steps of one leg, with the text normalizer
applied to each instruction. -/
def directions_steps_inner : List PyVal → List PyVal → Except PyErr (List PyVal)
  | [], acc => .ok acc
  | step :: steps, acc => do
    let instrV ← pyGetItem step "html_instructions"
    let instr ← asStr instrV
    let d ← pyGetItem step "distance"
    let dt ← pyGetItem d "text"
    let u ← pyGetItem step "duration"
    let ut ← pyGetItem u "text"
    directions_steps_inner steps
      (acc ++ [PyVal.dict [("instruction", .str (strip_html_regex instr)),
                           ("distance", dt), ("duration", ut)]])

/-- The outer loop over all legs of the chosen route. -/
def directions_steps : List PyVal → List PyVal → Except PyErr (List PyVal)
  | [], acc => .ok acc
  | leg :: legs, acc => do
    let steps ← pyGetItem leg "steps"
    let stepsL ← asList steps
    let acc2 ← directions_steps_inner stepsL acc
    directions_steps legs acc2

/-- src/maps_agent/server.py get_directions.  The assert on `mode` is
caught and printed, so the provider is invoked for every mode; the shaping
takes the first route, the first-leg totals, and the normalized flattened
steps of all legs. -/
def get_directions (mode : String) (resp : PyVal) : Except PyErr (Option String) :=
  if resp.truthy then do
    let route ← pyIndex0 resp
    let legs ← pyGetItem route "legs"
    let leg0 ← pyIndex0 legs
    let dist ← pyGetItem leg0 "distance"
    let total_distance ← pyGetItem dist "text"
    let dur ← pyGetItem leg0 "duration"
    let total_duration ← pyGetItem dur "text"
    let legsL ← asList legs
    let steps ← directions_steps legsL []
    pure (some (jsonDumps (.dict
      [("total_distance", total_distance), ("total_duration", total_duration),
       ("steps", .list steps)])))
  else
    pure (some "No directions found for the specified locations.")

end MapsAgent

/-! ## Lemmas about the text normalizer -/

/-- A successful `<.*?>` match consumes at least its closing bracket. -/
theorem splitAtGt_length {cs rest : List Char} (h : splitAtGt cs = some rest) :
    rest.length < cs.length := by
  induction cs generalizing rest with
  | nil => simp [splitAtGt] at h
  | cons c cs ih =>
    by_cases hc : c = '>'
    · simp [splitAtGt, hc] at h
      simp [← h]
    · by_cases hn : c = '\n'
      · simp [splitAtGt, hc, hn] at h
      · simp [splitAtGt, hc, hn] at h
        exact Nat.lt_trans (ih h) (Nat.lt_succ_self _)

/-- When a `>` is reachable, the buffered tag attempt succeeds: one space is
emitted and the scan resumes after the `>`, whatever was buffered. -/
theorem tagSubAux_some_succ {cs rest : List Char} (h : splitAtGt cs = some rest)
    (buf : List Char) : tagSubAux cs (some buf) = ' ' :: tagSubAux rest Option.none := by
  induction cs generalizing rest buf with
  | nil => simp [splitAtGt] at h
  | cons c cs ih =>
    by_cases hc : c = '>'
    · simp [splitAtGt, hc] at h
      simp [tagSubAux, hc, ← h]
    · by_cases hn : c = '\n'
      · simp [splitAtGt, hc, hn] at h
      · simp [splitAtGt, hc, hn] at h
        simp [tagSubAux, hc, hn, ih h]

/-- When no `>` is reachable before a newline or the end, the buffered tag
attempt fails: the buffer is emitted verbatim and the scan continues as if
started outside a tag. -/
theorem tagSubAux_some_fail {cs : List Char} (h : splitAtGt cs = Option.none)
    (buf : List Char) :
    tagSubAux cs (some buf) = buf.reverse ++ tagSubAux cs Option.none := by
  induction cs generalizing buf with
  | nil => simp [tagSubAux]
  | cons c cs ih =>
    by_cases hc : c = '>'
    · simp [splitAtGt, hc] at h
    · by_cases hn : c = '\n'
      · simp [tagSubAux, hc, hn]
      · simp [splitAtGt, hc, hn] at h
        by_cases hl : c = '<'
        · simp [tagSubAux, hc, hn, hl, ih h]
        · simp [tagSubAux, hc, hn, hl, ih h]

/-- The one-step unfolding of `tagSub` on a nonempty list, stated through
the match on `splitAtGt`. -/
theorem tagSub_cons (c : Char) (cs : List Char) :
    tagSub (c :: cs) =
      if c = '<' then
        match splitAtGt cs with
        | some rest => ' ' :: tagSub rest
        | Option.none => '<' :: tagSub cs
      else c :: tagSub cs := by
  by_cases hl : c = '<'
  · cases h : splitAtGt cs with
    | none =>
      simpa [tagSub, tagSubAux, hl, h] using tagSubAux_some_fail h [c]
    | some rest =>
      simpa [tagSub, tagSubAux, hl, h] using tagSubAux_some_succ h [c]
  · simp [tagSub, tagSubAux, hl]

/-- No `<` of the list starts a completable tag (no `>` reachable from it
before a newline): the property characterizing the output of `tagSub`. -/
def noTag : List Char → Bool
  | [] => true
  | c :: cs => (if c = '<' then (splitAtGt cs).isNone else true) && noTag cs

theorem noTag_tail {c : Char} {cs : List Char} (h : noTag (c :: cs) = true) :
    noTag cs = true := by
  simp [noTag, Bool.and_eq_true] at h
  exact h.2

/-- On a list with no completable tag, `tagSub` is the identity. -/
theorem tagSub_of_noTag {l : List Char} (h : noTag l = true) : tagSub l = l := by
  induction l with
  | nil => rfl
  | cons c cs ih =>
    have ht := noTag_tail h
    by_cases hl : c = '<'
    · simp [noTag, hl, Bool.and_eq_true, Option.isNone_iff_eq_none] at h
      rw [tagSub_cons]
      simp [hl, h.1, ih ht]
    · rw [tagSub_cons]
      simp [hl, ih ht]

/-- `tagSub` preserves the absence of a reachable `>`: it only removes
characters or inserts spaces, so no `>` appears before the first newline if
none did. -/
theorem splitAtGt_tagSub_fuel :
    ∀ (n : Nat) (l : List Char), l.length ≤ n → splitAtGt l = Option.none →
      splitAtGt (tagSub l) = Option.none := by
  intro n
  induction n with
  | zero =>
    intro l hl h
    rw [List.length_eq_zero.mp (Nat.le_zero.mp hl)] at h ⊢
    simpa [tagSub, tagSubAux] using h
  | succ n ih =>
    intro l hl h
    cases l with
    | nil => simpa [tagSub, tagSubAux] using h
    | cons c cs =>
      simp at hl
      by_cases hc : c = '>'
      · simp [splitAtGt, hc] at h
      · by_cases hnl : c = '\n'
        · rw [tagSub_cons]
          simp [hnl, splitAtGt]
        · simp [splitAtGt, hc, hnl] at h
          by_cases hl2 : c = '<'
          · rw [tagSub_cons]
            simp [hl2, h]
            rw [splitAtGt]
            simp [hc, hnl]
            exact ih cs hl h
          · rw [tagSub_cons]
            simp [hl2]
            rw [splitAtGt]
            simp [hc, hnl]
            exact ih cs hl h

/-- `tagSub` preserves the absence of a reachable `>`: it only removes
characters or inserts spaces, so no `>` appears before the first newline if
none did. -/
theorem splitAtGt_tagSub {l : List Char} (h : splitAtGt l = Option.none) :
    splitAtGt (tagSub l) = Option.none :=
  splitAtGt_tagSub_fuel l.length l (Nat.le_refl _) h

theorem noTag_tagSub_fuel :
    ∀ (n : Nat) (l : List Char), l.length ≤ n → noTag (tagSub l) = true := by
  intro n
  induction n with
  | zero =>
    intro l hl
    rw [List.length_eq_zero.mp (Nat.le_zero.mp hl)]
    simp [tagSub, tagSubAux, noTag]
  | succ n ih =>
    intro l hl
    cases l with
    | nil => simp [tagSub, tagSubAux, noTag]
    | cons c cs =>
      simp at hl
      by_cases hl2 : c = '<'
      · cases h : splitAtGt cs with
        | none =>
          rw [tagSub_cons]
          simp [hl2, h, noTag, Option.isNone_iff_eq_none]
          exact ⟨splitAtGt_tagSub h, ih cs hl⟩
        | some rest =>
          rw [tagSub_cons]
          simp [hl2, h, noTag]
          exact ih rest (Nat.le_of_lt (Nat.lt_of_lt_of_le (splitAtGt_length h) hl))
      · rw [tagSub_cons]
        simp [hl2, noTag]
        exact ih cs hl

/-- The output of `tagSub` contains no completable tag. -/
theorem noTag_tagSub (l : List Char) : noTag (tagSub l) = true :=
  noTag_tagSub_fuel l.length l (Nat.le_refl _)

theorem spaceSub_length : ∀ l : List Char, (spaceSub l).length ≤ l.length := by
  intro l
  induction l with
  | nil => simp [spaceSub]
  | cons c₁ tail ih =>
    cases tail with
    | nil => simp [spaceSub]
    | cons c₂ cs =>
      by_cases h : c₁ = ' ' ∧ c₂ = ' '
      · rw [spaceSub, if_pos h]
        exact Nat.le_succ_of_le ih
      · rw [spaceSub, if_neg h]
        simpa using ih

/-- `spaceSub` keeps the first character of a nonempty list. -/
theorem spaceSub_cons_head : ∀ (cs : List Char) (c : Char),
    ∃ ys, spaceSub (c :: cs) = c :: ys := by
  intro cs
  induction cs with
  | nil => exact fun c => ⟨[], rfl⟩
  | cons c₂ cs ih =>
    intro c
    by_cases h : c = ' ' ∧ c₂ = ' '
    · obtain ⟨ys, hys⟩ := ih c₂
      rw [spaceSub, if_pos h, hys, h.1, ← h.2]
      exact ⟨ys, rfl⟩
    · rw [spaceSub, if_neg h]
      exact ⟨spaceSub (c₂ :: cs), rfl⟩

/-- `spaceSub` only deletes spaces, so it cannot make a `>` reachable
before the first newline when none was. -/
theorem splitAtGt_spaceSub : ∀ l : List Char, splitAtGt l = Option.none →
    splitAtGt (spaceSub l) = Option.none := by
  intro l
  induction l with
  | nil => simp [spaceSub]
  | cons c₁ tail ih =>
    intro h
    by_cases hc : c₁ = '>'
    · simp [splitAtGt, hc] at h
    · by_cases hn : c₁ = '\n'
      · cases tail with
        | nil => simp [spaceSub, splitAtGt, hn]
        | cons c₂ cs =>
          rw [spaceSub, if_neg (by simp [hn])]
          simp [splitAtGt, hn]
      · simp [splitAtGt, hc, hn] at h
        cases tail with
        | nil => simpa [spaceSub, splitAtGt, hc, hn] using h
        | cons c₂ cs =>
          by_cases hb : c₁ = ' ' ∧ c₂ = ' '
          · rw [spaceSub, if_pos hb]
            exact ih h
          · rw [spaceSub, if_neg hb]
            rw [splitAtGt]
            simp [hc, hn]
            exact ih h

/-- `spaceSub` preserves the absence of completable tags. -/
theorem noTag_spaceSub : ∀ l : List Char, noTag l = true →
    noTag (spaceSub l) = true := by
  intro l
  induction l with
  | nil => simp [spaceSub]
  | cons c₁ tail ih =>
    intro h
    have ht := ih (noTag_tail h)
    cases tail with
    | nil => simpa [spaceSub] using h
    | cons c₂ cs =>
      by_cases hb : c₁ = ' ' ∧ c₂ = ' '
      · rw [spaceSub, if_pos hb]
        exact ht
      · rw [spaceSub, if_neg hb]
        rw [noTag, Bool.and_eq_true]
        refine ⟨?_, ht⟩
        by_cases hl : c₁ = '<'
        · simp [noTag, hl, Bool.and_eq_true, Option.isNone_iff_eq_none] at h
          simp [hl, Option.isNone_iff_eq_none]
          exact splitAtGt_spaceSub _ h.1
        · simp [hl]

theorem spaceSub_idem_fuel : ∀ (n : Nat) (l : List Char), l.length ≤ n →
    spaceSub (spaceSub l) = spaceSub l := by
  intro n
  induction n with
  | zero =>
    intro l hl
    rw [List.length_eq_zero.mp (Nat.le_zero.mp hl)]
    rfl
  | succ n ih =>
    intro l hl
    cases l with
    | nil => rfl
    | cons c₁ tail =>
      cases tail with
      | nil => rfl
      | cons c₂ cs =>
        simp at hl
        by_cases hb : c₁ = ' ' ∧ c₂ = ' '
        · rw [spaceSub, if_pos hb]
          exact ih (c₂ :: cs) (by simpa using hl)
        · rw [spaceSub, if_neg hb]
          have hX : spaceSub (spaceSub (c₂ :: cs)) = spaceSub (c₂ :: cs) :=
            ih (c₂ :: cs) (by simpa using hl)
          cases hXe : spaceSub (c₂ :: cs) with
          | nil => rfl
          | cons x xs =>
            have hxne : ¬(c₁ = ' ' ∧ x = ' ') := by
              intro hcon
              apply hb
              obtain ⟨ys, hys⟩ := spaceSub_cons_head cs c₂
              rw [hys] at hXe
              cases hXe
              exact hcon
            rw [spaceSub, if_neg hxne]
            rw [← hXe, hX]

/-- `spaceSub` is idempotent: after one pass no run of two spaces is left. -/
theorem spaceSub_idem (l : List Char) : spaceSub (spaceSub l) = spaceSub l :=
  spaceSub_idem_fuel l.length l (Nat.le_refl _)

/-- The output of one strip pass has no completable tag left, so the tag
substitution of a second pass is the identity on it. -/
theorem tagSub_strip_output (l : List Char) :
    tagSub (spaceSub (tagSub l)) = spaceSub (tagSub l) :=
  tagSub_of_noTag (noTag_spaceSub _ (noTag_tagSub l))

/-- No two adjacent characters of the list are both spaces. -/
def noDoubleSpace : List Char → Bool
  | [] => true
  | [_] => true
  | c₁ :: c₂ :: cs => !(c₁ = ' ' && c₂ = ' ') && noDoubleSpace (c₂ :: cs)

theorem noDoubleSpace_spaceSub_fuel : ∀ (n : Nat) (l : List Char), l.length ≤ n →
    noDoubleSpace (spaceSub l) = true := by
  intro n
  induction n with
  | zero =>
    intro l hl
    rw [List.length_eq_zero.mp (Nat.le_zero.mp hl)]
    rfl
  | succ n ih =>
    intro l hl
    cases l with
    | nil => rfl
    | cons c₁ tail =>
      cases tail with
      | nil => rfl
      | cons c₂ cs =>
        simp at hl
        by_cases hb : c₁ = ' ' ∧ c₂ = ' '
        · rw [spaceSub, if_pos hb]
          exact ih (c₂ :: cs) (by simpa using hl)
        · rw [spaceSub, if_neg hb]
          have hX : noDoubleSpace (spaceSub (c₂ :: cs)) = true :=
            ih (c₂ :: cs) (by simpa using hl)
          cases hXe : spaceSub (c₂ :: cs) with
          | nil => rfl
          | cons x xs =>
            rw [hXe] at hX
            have hxne : ¬(c₁ = ' ' ∧ x = ' ') := by
              intro hcon
              apply hb
              obtain ⟨ys, hys⟩ := spaceSub_cons_head cs c₂
              rw [hys] at hXe
              cases hXe
              exact hcon
            rw [noDoubleSpace, Bool.and_eq_true]
            constructor
            · simp only [Bool.not_eq_true']
              rcases Decidable.em (c₁ = ' ') with h1 | h1
              · rcases Decidable.em (x = ' ') with h2 | h2
                · exact absurd ⟨h1, h2⟩ hxne
                · simp [h2]
              · simp [h1]
            · exact hX

/-- The output of `spaceSub` has no run of two spaces left. -/
theorem noDoubleSpace_spaceSub (l : List Char) : noDoubleSpace (spaceSub l) = true :=
  noDoubleSpace_spaceSub_fuel l.length l (Nat.le_refl _)

/-! ## Structured directions responses

A well-formed provider directions response, used to state the shaping
claims: a route is a summary plus legs, a leg is its total distance and
duration texts plus steps, a step is its instruction plus texts.  The
encode functions produce exactly the JSON shape the provider client
returns (spec section 6). -/

structure StepSpec where
  html_instructions : String
  distance_text : String
  duration_text : String

structure LegSpec where
  distance_text : String
  duration_text : String
  steps : List StepSpec

structure RouteSpec where
  summary : String
  legs : List LegSpec

def encodeStep (s : StepSpec) : PyVal :=
  .dict [("html_instructions", .str s.html_instructions),
         ("distance", .dict [("text", .str s.distance_text)]),
         ("duration", .dict [("text", .str s.duration_text)])]

def encodeLeg (leg : LegSpec) : PyVal :=
  .dict [("distance", .dict [("text", .str leg.distance_text)]),
         ("duration", .dict [("text", .str leg.duration_text)]),
         ("steps", .list (leg.steps.map encodeStep))]

def encodeRoute (r : RouteSpec) : PyVal :=
  .dict [("summary", .str r.summary),
         ("legs", .list (r.legs.map encodeLeg))]

/-- The in-order flattening of the steps of every leg. -/
def flattenSteps : List LegSpec → List StepSpec
  | [] => []
  | leg :: legs => leg.steps ++ flattenSteps legs

/-- One output step of src/server.py get_directions: the instruction is the
raw html_instructions. -/
def stepOutRaw (s : StepSpec) : PyVal :=
  .dict [("instruction", .str s.html_instructions),
         ("distance", .str s.distance_text),
         ("duration", .str s.duration_text)]

/-- One output step of src/maps_agent/server.py get_directions: the
instruction passes through strip_html_regex. -/
def stepOutStripped (s : StepSpec) : PyVal :=
  .dict [("instruction", .str (strip_html_regex s.html_instructions)),
         ("distance", .str s.distance_text),
         ("duration", .str s.duration_text)]

theorem server_steps_inner_raw_eq (ss : List StepSpec) (acc : List PyVal) :
    Server.directions_steps_inner (ss.map encodeStep) acc =
      .ok (acc ++ ss.map stepOutRaw) := by
  induction ss generalizing acc with
  | nil => simp [Server.directions_steps_inner]
  | cons s ss ih =>
    simp [Server.directions_steps_inner, encodeStep, pyGetItem, pyLookup, ih,
      stepOutRaw, bind, Except.bind]

theorem server_steps_raw_eq (legs : List LegSpec) (acc : List PyVal) :
    Server.directions_steps (legs.map encodeLeg) acc =
      .ok (acc ++ (flattenSteps legs).map stepOutRaw) := by
  induction legs generalizing acc with
  | nil => simp [Server.directions_steps, flattenSteps]
  | cons leg legs ih =>
    simp [Server.directions_steps, encodeLeg, pyGetItem, pyLookup, asList,
      server_steps_inner_raw_eq, ih, flattenSteps, bind, Except.bind]

theorem agent_steps_inner_stripped_eq (ss : List StepSpec) (acc : List PyVal) :
    MapsAgent.directions_steps_inner (ss.map encodeStep) acc =
      .ok (acc ++ ss.map stepOutStripped) := by
  induction ss generalizing acc with
  | nil => simp [MapsAgent.directions_steps_inner]
  | cons s ss ih =>
    simp [MapsAgent.directions_steps_inner, encodeStep, pyGetItem, pyLookup,
      asStr, ih, stepOutStripped, bind, Except.bind]

theorem agent_steps_stripped_eq (legs : List LegSpec) (acc : List PyVal) :
    MapsAgent.directions_steps (legs.map encodeLeg) acc =
      .ok (acc ++ (flattenSteps legs).map stepOutStripped) := by
  induction legs generalizing acc with
  | nil => simp [MapsAgent.directions_steps, flattenSteps]
  | cons leg legs ih =>
    simp [MapsAgent.directions_steps, encodeLeg, pyGetItem, pyLookup, asList,
      agent_steps_inner_stripped_eq, ih, flattenSteps, bind, Except.bind]

/-! ## Lemmas about place_nearby's name-to-id mapping -/

/-- A provider nearby candidate with a name and a place id. -/
def nearbyEncode (p : String × String) : PyVal :=
  .dict [("name", .str p.1), ("place_id", .str p.2)]

/-- The mapping the loop of place_nearby builds: repeated Python dict
assignment starting from the empty dict. -/
def nearbyFold (ps : List (String × String)) : List (String × PyVal) :=
  ps.foldl (fun m p => pyDictSet m p.1 (.str p.2)) []

theorem pyLookup_pyDictSet (m : List (String × PyVal)) (k : String) (v : PyVal)
    (key : String) :
    pyLookup (pyDictSet m k v) key = if k = key then some v else pyLookup m key := by
  induction m with
  | nil => simp [pyDictSet, pyLookup]
  | cons kv ms ih =>
    obtain ⟨k₁, w⟩ := kv
    by_cases h1 : k₁ = k
    · rw [pyDictSet, if_pos h1]
      by_cases h2 : k = key
      · simp [pyLookup, h1, h2]
      · simp [pyLookup, h1, h2]
    · rw [pyDictSet, if_neg h1]
      by_cases h2 : k₁ = key
      · have : ¬k = key := fun hk => h1 (by rw [hk, h2])
        simp [pyLookup, h2, this]
      · simp [pyLookup, h2, ih]

theorem place_nearby_loop_encode (ps : List (String × String))
    (acc : List (String × PyVal)) :
    Server.place_nearby_loop (ps.map nearbyEncode) acc =
      .ok (ps.foldl (fun m p => pyDictSet m p.1 (.str p.2)) acc) := by
  induction ps generalizing acc with
  | nil => simp [Server.place_nearby_loop]
  | cons p ps ih =>
    simp [Server.place_nearby_loop, nearbyEncode, pyGetItem, pyLookup, asStr,
      bind, Except.bind, ih]

/-- The mapping built by the loop answers each name with the place id of
the last candidate carrying that name. -/
theorem nearbyFold_lookup_gen (ps : List (String × String))
    (acc : List (String × PyVal)) (nm : String) :
    pyLookup (ps.foldl (fun m p => pyDictSet m p.1 (.str p.2)) acc) nm =
      match ps.reverse.find? (fun p => p.1 == nm) with
      | some p => some (.str p.2)
      | Option.none => pyLookup acc nm := by
  induction ps generalizing acc with
  | nil => simp
  | cons p ps ih =>
    rw [List.foldl_cons, ih]
    rw [List.reverse_cons, List.find?_append]
    cases hf : ps.reverse.find? (fun p => p.1 == nm) with
    | some q => simp [hf]
    | none =>
      simp [hf, Option.orElse, List.find?]
      by_cases h : p.1 = nm
      · simp [h, pyLookup_pyDictSet]
      · have hb : (p.1 == nm) = false := by simp [h]
        simp [hb, h, pyLookup_pyDictSet]

/-! ## The head of a serialized JSON object -/

theorem jsonDumps_dict_data (d : List (String × PyVal)) :
    (jsonDumps (.dict d)).data = '\x7b' :: (jsonDumpsDict d ++ "\x7d").data := rfl

/-- A serialized JSON object starts with an opening brace, so it never
equals one of the sentinel strings (which start with a letter). -/
theorem jsonDumps_dict_head (d : List (String × PyVal)) :
    (jsonDumps (.dict d)).data.head? = some '\x7b' := by
  rw [jsonDumps_dict_data]
  rfl

theorem jsonDumps_dict_ne_of_head {s : String} (h : s.data.head? ≠ some '\x7b')
    (d : List (String × PyVal)) : jsonDumps (.dict d) ≠ s := by
  intro he
  apply h
  rw [← he]
  exact jsonDumps_dict_head d

/-- Whatever the first candidate looks like, find_place's success path ends
in an error or in a serialized JSON object: never in a sentinel string. -/
theorem find_place_output_shape (place : PyVal) :
    (∃ e, Server.find_place_output place = .error e) ∨
    (∃ d, Server.find_place_output place = .ok (some (jsonDumps (.dict d)))) := by
  rw [Server.find_place_output]
  cases h1 : pyGetItem place "name" with
  | error e => exact Or.inl ⟨e, by simp [h1, bind, Except.bind]⟩
  | ok name =>
    cases h2 : pyGetItem place "place_id" with
    | error e => exact Or.inl ⟨e, by simp [h1, h2, bind, Except.bind]⟩
    | ok place_id =>
      cases h3 : pyGetItem place "formatted_address" with
      | error e => exact Or.inl ⟨e, by simp [h1, h2, h3, bind, Except.bind]⟩
      | ok fa =>
        cases h4 : pyGetItem place "geometry" with
        | error e => exact Or.inl ⟨e, by simp [h1, h2, h3, h4, bind, Except.bind]⟩
        | ok geom =>
          cases h5 : pyGetItem geom "location" with
          | error e =>
            exact Or.inl ⟨e, by simp [h1, h2, h3, h4, h5, bind, Except.bind]⟩
          | ok loc =>
            cases h6 : pyGetItem place "types" with
            | error e =>
              exact Or.inl ⟨e, by simp [h1, h2, h3, h4, h5, h6, bind, Except.bind]⟩
            | ok types =>
              cases h7 : pyGet place "rating" PyVal.none with
              | error e =>
                exact Or.inl ⟨e, by
                  simp [h1, h2, h3, h4, h5, h6, h7, bind, Except.bind]⟩
              | ok rating =>
                exact Or.inr ⟨[("name", name), ("place_id", place_id),
                  ("formatted_address", fa), ("location", loc),
                  ("types", types), ("rating", rating)], by
                  simp [h1, h2, h3, h4, h5, h6, h7, bind, Except.bind, pure,
                    Except.pure]⟩

/-! ## The place_details output, in the words of the spec -/

/-- Following the words of the spec (section 4.8): the non-null subset of
name, formatted address, phone, website, category tags, rating and rating
count, with the rating count defaulting to 0 when absent. -/
def place_details_spec_fields (d : List (String × PyVal)) : List (String × PyVal) :=
  ([("name", (pyLookup d "name").getD PyVal.none),
    ("formatted_address", (pyLookup d "formatted_address").getD PyVal.none),
    ("formatted_phone_number", (pyLookup d "formatted_phone_number").getD PyVal.none),
    ("website", (pyLookup d "website").getD PyVal.none),
    ("types", (pyLookup d "types").getD PyVal.none),
    ("rating", (pyLookup d "rating").getD PyVal.none),
    ("user_ratings_total", (pyLookup d "user_ratings_total").getD (PyVal.int 0))]).filter
    (fun kv => !kv.2.isNone)

/-- The complete behavior of place_details on a response carrying a detail
dict: the empty-details sentinel, the falsy-name sentinel, or the JSON
serialization of the non-null field subset. -/
theorem Server.place_details_dict_eq (d : List (String × PyVal)) :
    Server.place_details (.dict [("result", .dict d)]) =
      .ok (some (
        if d.isEmpty then "No details found for the specified place."
        else if ((pyLookup (place_details_spec_fields d) "name").getD PyVal.none).truthy
          = false then "Essential place details (e.g. name) are missing."
        else jsonDumps (.dict (place_details_spec_fields d)))) := by
  by_cases hd : d.isEmpty
  · simp [Server.place_details, PyVal.truthy, pyGet, pyLookup, hd, bind,
      Except.bind, pure, Except.pure]
  · by_cases hn :
      ((pyLookup (place_details_spec_fields d) "name").getD PyVal.none).truthy = false
    · simp [Server.place_details, PyVal.truthy, pyGet, pyLookup, hd, bind,
        Except.bind, pure, Except.pure, place_details_spec_fields] at hn ⊢
      simp [hn]
    · simp only [Bool.not_eq_false] at hn
      simp [Server.place_details, PyVal.truthy, pyGet, pyLookup, hd, bind,
        Except.bind, pure, Except.pure, place_details_spec_fields] at hn ⊢
      simp [hn]

/-! ## The claims -/

/-- C1: for every call to get_directions or get_distance with a mode
string outside the allowed set, and every call to find_place with an
input_type outside its allowed set, the tool returns the structured JSON
error payload (an object with an error key whose message names the
offending value and the allowed set) and the provider client is never
invoked (the Bool component is false). -/
theorem claim_C1 (mode input_type : String) (r₁ r₂ r₃ : PyVal)
    (hm : mode ∉ Server.allowed_modes)
    (ht : input_type ∉ Server.allowed_input_types) :
    Server.get_directions mode r₁ =
      (.ok (some (jsonDumps (.dict [("error", .str (Server.mode_error_msg mode))]))),
        false)
    ∧ Server.get_distance mode r₂ =
      (.ok (some (jsonDumps (.dict [("error", .str (Server.mode_error_msg mode))]))),
        false)
    ∧ Server.find_place input_type r₃ =
      (.ok (some (jsonDumps
        (.dict [("error", .str (Server.input_type_error_msg input_type))]))), false) := by
  refine ⟨?_, ?_, ?_⟩
  · rw [Server.get_directions, if_neg hm]
  · rw [Server.get_distance, if_neg hm]
  · rw [Server.find_place, if_neg ht]

/-- Witness for C1 at the invalid mode "flying" and invalid input type
"email". -/
theorem claim_C1_witness :
    Server.get_directions "flying" PyVal.none =
      (.ok (some (jsonDumps (.dict [("error", .str (Server.mode_error_msg "flying"))]))),
        false)
    ∧ Server.get_distance "flying" PyVal.none =
      (.ok (some (jsonDumps (.dict [("error", .str (Server.mode_error_msg "flying"))]))),
        false)
    ∧ Server.find_place "email" PyVal.none =
      (.ok (some (jsonDumps
        (.dict [("error", .str (Server.input_type_error_msg "email"))]))), false) :=
  claim_C1 "flying" "email" PyVal.none PyVal.none PyVal.none (by decide) (by decide)

/-- C2 counterexample: the claim says no shaper raises when the provider
response is missing expected keys, but get_directions subscripts the first
route for a summary directly, so a route without one raises KeyError (after
the provider was invoked). -/
theorem claim_C2_counterexample :
    Server.get_directions "driving" (.list [.dict [("legs", .list [])]]) =
      (.error .keyError, true) := by
  have hdm : ("driving" ∈ Server.allowed_modes) := by decide
  rw [Server.get_directions, if_pos hdm]
  rfl

/-- C2 as amended: get_distance and place_details reach a result or a
descriptive sentinel through defaulted access when expected fields are
missing, but get_directions, get_geocode, find_place and place_nearby use
direct subscripting and raise KeyError on responses missing expected keys. -/
theorem claim_C2_theorem :
    (∀ e : List (String × PyVal),
      pyLookup e "distance" = Option.none ∨ pyLookup e "duration" = Option.none →
      Server.get_distance "driving"
        (.dict [("rows", .list [.dict [("elements", .list [.dict e])]])]) =
        (.ok (some "No distance information found for the specified locations."),
          true))
    ∧ (∀ d : List (String × PyVal), ∃ s : String,
      Server.place_details (.dict [("result", .dict d)]) = .ok (some s))
    ∧ Server.get_directions "driving" (.list [.dict []]) = (.error .keyError, true)
    ∧ Server.find_place "textquery" (.dict [("candidates", .list [.dict []])]) =
        (.error .keyError, true)
    ∧ Server.get_geocode (.list [.dict []]) = .error .keyError
    ∧ Server.place_nearby (.dict [("results", .list [.dict []])]) =
        .error .keyError := by
  have hdm : ("driving" ∈ Server.allowed_modes) := by decide
  have htq : ("textquery" ∈ Server.allowed_input_types) := by decide
  refine ⟨?_, ?_, ?_, ?_, ?_, ?_⟩
  · intro e he
    rw [Server.get_distance, if_pos hdm]
    rcases he with he | he
    · simp [Server.get_distance_body, PyVal.truthy, pyGet, pyLookup, pyIndex0,
        pyContains, bind, Except.bind, pure, Except.pure, he]
    · cases hd : pyLookup e "distance" with
      | none =>
        simp [Server.get_distance_body, PyVal.truthy, pyGet, pyLookup, pyIndex0,
          pyContains, bind, Except.bind, pure, Except.pure, hd]
      | some dv =>
        simp [Server.get_distance_body, PyVal.truthy, pyGet, pyLookup, pyIndex0,
          pyContains, bind, Except.bind, pure, Except.pure, hd, he]
  · intro d
    rw [Server.place_details_dict_eq d]
    exact ⟨_, rfl⟩
  · rw [Server.get_directions, if_pos hdm]
    rfl
  · rw [Server.find_place, if_pos htq]
    rfl
  · rfl
  · rfl

/-- Witness for C2 at a distance element missing both fields and a detail
dict with only an address. -/
theorem claim_C2_witness :
    Server.get_distance "driving"
      (.dict [("rows", .list [.dict [("elements", .list [.dict []])]])]) =
      (.ok (some "No distance information found for the specified locations."), true)
    ∧ ∃ s : String,
      Server.place_details (.dict [("result",
        .dict [("formatted_address", .str "X")])]) = .ok (some s) :=
  ⟨claim_C2_theorem.1 [] (Or.inl rfl),
   claim_C2_theorem.2.1 [("formatted_address", .str "X")]⟩

/-- C3 counterexample: src/server.py get_directions (one of the two cited
implementations) emits each step instruction verbatim: on a one-step route
whose instruction carries markup, the output instruction is the raw
html_instructions, which differs from its normalized form, so the Text
Normalizer is not applied there. -/
theorem claim_C3_counterexample :
    Server.get_directions "driving"
      (.list [encodeRoute ⟨"Main St",
        [⟨"10 km", "20 mins", [⟨"<b>Turn  left</b>", "10 km", "20 mins"⟩]⟩]⟩]) =
      (.ok (some (jsonDumps (.dict
        [("summary", .str "Main St"), ("total_distance", .str "10 km"),
         ("total_duration", .str "20 mins"),
         ("steps", .list [.dict
           [("instruction", .str "<b>Turn  left</b>"),
            ("distance", .str "10 km"), ("duration", .str "20 mins")]])]))), true)
    ∧ strip_html_regex "<b>Turn  left</b>" ≠ "<b>Turn  left</b>" := by
  constructor
  · have hdm : ("driving" ∈ Server.allowed_modes) := by decide
    rw [Server.get_directions, if_pos hdm]
    rfl
  · decide

/-- C3 as amended: on every non-empty provider response whose first route
is well formed, the maps_agent get_directions behaves exactly as the claim
states (first route, first-leg totals, in-order flattening of the steps of
every leg, the Text Normalizer applied to each instruction), while the
src/server.py get_directions produces the same shape plus a summary field
but with each html_instructions passed through verbatim. -/
theorem claim_C3_theorem (r : RouteSpec) (more : List PyVal)
    (leg0 : LegSpec) (rest : List LegSpec) (h : r.legs = leg0 :: rest) :
    MapsAgent.get_directions "driving" (.list (encodeRoute r :: more)) =
      .ok (some (jsonDumps (.dict
        [("total_distance", .str leg0.distance_text),
         ("total_duration", .str leg0.duration_text),
         ("steps", .list ((flattenSteps r.legs).map stepOutStripped))])))
    ∧ Server.get_directions "driving" (.list (encodeRoute r :: more)) =
      (.ok (some (jsonDumps (.dict
        [("summary", .str r.summary),
         ("total_distance", .str leg0.distance_text),
         ("total_duration", .str leg0.duration_text),
         ("steps", .list ((flattenSteps r.legs).map stepOutRaw))]))), true) := by
  constructor
  · have hs := agent_steps_stripped_eq (leg0 :: rest) ([] : List PyVal)
    rw [List.map_cons] at hs
    simp only [encodeLeg, List.nil_append] at hs
    simp [MapsAgent.get_directions, encodeRoute, h, encodeLeg, pyIndex0,
      pyGetItem, pyLookup, asList, PyVal.truthy, bind, Except.bind, pure,
      Except.pure, hs]
  · have hdm : ("driving" ∈ Server.allowed_modes) := by decide
    rw [Server.get_directions, if_pos hdm]
    have hs := server_steps_raw_eq (leg0 :: rest) ([] : List PyVal)
    rw [List.map_cons] at hs
    simp only [encodeLeg, List.nil_append] at hs
    simp [Server.get_directions_body, encodeRoute, h, encodeLeg, pyIndex0,
      pyGetItem, pyLookup, asList, PyVal.truthy, bind, Except.bind, pure,
      Except.pure, hs]

/-- The concrete directions response of the spec's example: one route, one
leg, two steps. -/
def c3_step1 : StepSpec := ⟨"Head <b>south</b>", "50 mi", "1 hour"⟩

def c3_step2 : StepSpec := ⟨"Continue  straight", "50 mi", "1 hour"⟩

def c3_leg : LegSpec := ⟨"100 mi", "2 hours", [c3_step1, c3_step2]⟩

def c3_route : RouteSpec := ⟨"US-101 S", [c3_leg]⟩

/-- Witness for C3 at one route, one leg and two steps: the totals are the
first leg's texts and the flattened step list has length 2. -/
theorem claim_C3_witness :
    (MapsAgent.get_directions "driving" (.list [encodeRoute c3_route]) =
      .ok (some (jsonDumps (.dict
        [("total_distance", .str c3_leg.distance_text),
         ("total_duration", .str c3_leg.duration_text),
         ("steps", .list ((flattenSteps c3_route.legs).map stepOutStripped))])))
    ∧ Server.get_directions "driving" (.list [encodeRoute c3_route]) =
      (.ok (some (jsonDumps (.dict
        [("summary", .str c3_route.summary),
         ("total_distance", .str c3_leg.distance_text),
         ("total_duration", .str c3_leg.duration_text),
         ("steps", .list ((flattenSteps c3_route.legs).map stepOutRaw))]))), true))
    ∧ ((flattenSteps c3_route.legs).map stepOutStripped).length = 2 :=
  ⟨claim_C3_theorem c3_route [] c3_leg [] rfl, rfl⟩

/-- C4 counterexample: on a detail dict whose name is present but the
empty string (a non-null value), the claim requires the JSON object of the
non-null subset, but place_details tests the name with Python truthiness
and returns the essentials-missing sentinel instead. -/
theorem claim_C4_counterexample :
    Server.place_details (.dict [("result", .dict [("name", .str "")])]) =
      .ok (some "Essential place details (e.g. name) are missing.")
    ∧ "Essential place details (e.g. name) are missing." ≠
        jsonDumps (.dict [("name", .str ""), ("user_ratings_total", .int 0)]) := by
  constructor
  · rfl
  · decide

/-- C4 as amended: the falsy-response, empty-details and essentials-missing
sentinels are produced exactly as the claim states, except that the
essentials-missing sentinel is returned whenever the name field is absent
or falsy (for instance the empty string) after dropping null-valued fields;
otherwise the result is the JSON object of exactly the non-null subset of
the seven fields, with user_ratings_total defaulting to 0 when absent. -/
theorem claim_C4_theorem :
    (∀ d : List (String × PyVal),
      Server.place_details (.dict [("result", .dict d)]) =
        .ok (some (
          if d.isEmpty then "No details found for the specified place."
          else
            match pyLookup (place_details_spec_fields d) "name" with
            | some name =>
              if name.truthy then jsonDumps (.dict (place_details_spec_fields d))
              else "Essential place details (e.g. name) are missing."
            | Option.none => "Essential place details (e.g. name) are missing.")))
    ∧ (∀ resp : PyVal, resp.truthy = false →
        Server.place_details resp = .ok (some "No such place found.")) := by
  constructor
  · intro d
    rw [Server.place_details_dict_eq d]
    by_cases hd : d.isEmpty
    · simp [hd]
    · cases hm : pyLookup (place_details_spec_fields d) "name" with
      | none => simp [hd, hm, PyVal.truthy]
      | some name =>
        cases hnt : name.truthy
        · simp [hd, hm, hnt]
        · simp [hd, hm, hnt]
  · intro resp h
    simp [Server.place_details, h, pure, Except.pure]

/-- Witness for C4 at the spec's three examples: a detail dict with only a
formatted address (no name), and a falsy response. -/
theorem claim_C4_witness :
    Server.place_details (.dict [("result",
        .dict [("formatted_address", .str "X")])]) =
      .ok (some "Essential place details (e.g. name) are missing.")
    ∧ Server.place_details PyVal.none = .ok (some "No such place found.") :=
  ⟨claim_C4_theorem.1 [("formatted_address", .str "X")],
   claim_C4_theorem.2 PyVal.none rfl⟩

/-- C5: get_distance fails soft on every degenerate response the claim
enumerates — falsy response, no rows, first row without elements, first
element lacking a distance or duration field, first element with status
ZERO_RESULTS — returning a descriptive not-found string; and on success it
returns the JSON object with exactly total_distance and total_duration
taken from the first element's text fields. -/
theorem claim_C5 (mode : String) (hm : mode ∈ Server.allowed_modes) :
    (∀ resp : PyVal, resp.truthy = false →
      Server.get_distance mode resp =
        (.ok (some "No distance information found for the specified locations."),
          true))
    ∧ (∀ d : List (String × PyVal), (PyVal.dict d).truthy = true →
      ((pyLookup d "rows").getD (.list [])).truthy = false →
      Server.get_distance mode (.dict d) =
        (.ok (some "No distance information found for the specified locations."),
          true))
    ∧ (∀ (row : List (String × PyVal)) (rs : List PyVal),
      ((pyLookup row "elements").getD (.list [])).truthy = false →
      Server.get_distance mode (.dict [("rows", .list (.dict row :: rs))]) =
        (.ok (some "No distance information found for the specified locations."),
          true))
    ∧ (∀ (e : List (String × PyVal)) (es : List PyVal),
      pyLookup e "distance" = Option.none ∨ pyLookup e "duration" = Option.none →
      Server.get_distance mode
        (.dict [("rows", .list [.dict [("elements", .list (.dict e :: es))]])]) =
        (.ok (some "No distance information found for the specified locations."),
          true))
    ∧ (∀ (e : List (String × PyVal)) (es : List PyVal),
      pyLookup e "status" = some (.str "ZERO_RESULTS") →
      Server.get_distance mode
        (.dict [("rows", .list [.dict [("elements", .list (.dict e :: es))]])]) =
        (.ok (some (if (pyLookup e "distance").isSome && (pyLookup e "duration").isSome
          then "No distance information found for the specified locations (ZERO_RESULTS)."
          else "No distance information found for the specified locations.")),
          true))
    ∧ (∀ (e : List (String × PyVal)) (es : List PyVal) (dv uv dt ut : PyVal),
      pyLookup e "distance" = some dv → pyGetItem dv "text" = .ok dt →
      pyLookup e "duration" = some uv → pyGetItem uv "text" = .ok ut →
      pyEqStr ((pyLookup e "status").getD PyVal.none) "ZERO_RESULTS" = false →
      Server.get_distance mode
        (.dict [("rows", .list [.dict [("elements", .list (.dict e :: es))]])]) =
        (.ok (some (jsonDumps (.dict [("total_distance", dt), ("total_duration", ut)]))),
          true)) := by
  refine ⟨?_, ?_, ?_, ?_, ?_, ?_⟩
  · intro resp h
    rw [Server.get_distance, if_pos hm]
    simp [Server.get_distance_body, h, pure, Except.pure]
  · intro d htr hrows
    rw [Server.get_distance, if_pos hm]
    rw [Server.get_distance_body]
    simp [htr, pyGet, hrows, bind, Except.bind, pure, Except.pure]
  · intro row rs hel
    rw [Server.get_distance, if_pos hm]
    have h1 : (PyVal.dict [("rows", PyVal.list (PyVal.dict row :: rs))]).truthy
        = true := rfl
    have h2 : (PyVal.list (PyVal.dict row :: rs)).truthy = true := rfl
    simp [Server.get_distance_body, pyGet, pyLookup, pyIndex0, bind,
      Except.bind, pure, Except.pure, h1, h2, hel]
  · intro e es he
    rw [Server.get_distance, if_pos hm]
    rcases he with he | he
    · simp [Server.get_distance_body, PyVal.truthy, pyGet, pyLookup, pyIndex0,
        pyContains, bind, Except.bind, pure, Except.pure, he]
    · cases hd : pyLookup e "distance" with
      | none =>
        simp [Server.get_distance_body, PyVal.truthy, pyGet, pyLookup, pyIndex0,
          pyContains, bind, Except.bind, pure, Except.pure, hd]
      | some dv =>
        simp [Server.get_distance_body, PyVal.truthy, pyGet, pyLookup, pyIndex0,
          pyContains, bind, Except.bind, pure, Except.pure, hd, he]
  · intro e es hstatus
    rw [Server.get_distance, if_pos hm]
    cases hd : pyLookup e "distance" with
    | none =>
      simp [Server.get_distance_body, PyVal.truthy, pyGet, pyLookup, pyIndex0,
        pyContains, bind, Except.bind, pure, Except.pure, hd]
    | some dv =>
      cases hu : pyLookup e "duration" with
      | none =>
        simp [Server.get_distance_body, PyVal.truthy, pyGet, pyLookup, pyIndex0,
          pyContains, bind, Except.bind, pure, Except.pure, hd, hu]
      | some uv =>
        simp [Server.get_distance_body, PyVal.truthy, pyGet, pyLookup, pyIndex0,
          pyContains, bind, Except.bind, pure, Except.pure, hd, hu, hstatus,
          pyEqStr]
  · intro e es dv uv dt ut hd hdt hu hut hstatus
    rw [Server.get_distance, if_pos hm]
    have hd2 : pyGetItem (PyVal.dict e) "distance" = .ok dv := by
      simp [pyGetItem, hd]
    have hu2 : pyGetItem (PyVal.dict e) "duration" = .ok uv := by
      simp [pyGetItem, hu]
    simp [Server.get_distance_body, PyVal.truthy, pyGet, pyLookup, pyIndex0,
      pyContains, bind, Except.bind, pure, Except.pure, hd, hu, hd2, hdt,
      hu2, hut, hstatus]

/-- Witness for C5 at the spec's test inputs: empty rows, a ZERO_RESULTS
element lacking distance and duration, and a falsy response, all at mode
driving. -/
theorem claim_C5_witness :
    Server.get_distance "driving" (.dict [("rows", .list [])]) =
      (.ok (some "No distance information found for the specified locations."), true)
    ∧ Server.get_distance "driving"
        (.dict [("rows", .list [.dict [("elements",
          .list [.dict [("status", .str "ZERO_RESULTS")]])]])]) =
      (.ok (some "No distance information found for the specified locations."), true)
    ∧ Server.get_distance "driving" PyVal.none =
      (.ok (some "No distance information found for the specified locations."), true) :=
  ⟨(claim_C5 "driving" (by decide)).2.1 [("rows", .list [])] rfl rfl,
   (claim_C5 "driving" (by decide)).2.2.2.2.1 [("status", .str "ZERO_RESULTS")] [] rfl,
   (claim_C5 "driving" (by decide)).1 PyVal.none rfl⟩

/-- C6: place_nearby keeps the two empty outcomes apart: a falsy provider
response yields the nothing-nearby sentinel, a response whose results list
is empty yields the serialized empty mapping, and the two result strings
differ. -/
theorem claim_C6 :
    (∀ resp : PyVal, resp.truthy = false →
      Server.place_nearby resp =
        .ok (some "Nothing nearby that matches the search criteria was found."))
    ∧ (∀ d : List (String × PyVal), pyLookup d "results" = some (.list []) →
      Server.place_nearby (.dict d) = .ok (some (jsonDumps (.dict []))))
    ∧ jsonDumps (.dict []) ≠
        "Nothing nearby that matches the search criteria was found." := by
  refine ⟨?_, ?_, ?_⟩
  · intro resp h
    simp [Server.place_nearby, h, pure, Except.pure]
  · intro d hres
    have htr : (PyVal.dict d).truthy = true := by
      cases d with
      | nil => simp [pyLookup] at hres
      | cons kv kvs => rfl
    rw [Server.place_nearby]
    simp [htr, pyGet, hres, Server.place_nearby_loop, bind, Except.bind,
      pure, Except.pure]
  · decide

/-- Witness for C6 at a falsy response and at a response with an empty
results list. -/
theorem claim_C6_witness :
    Server.place_nearby PyVal.none =
      .ok (some "Nothing nearby that matches the search criteria was found.")
    ∧ Server.place_nearby (.dict [("results", .list [])]) =
      .ok (some (jsonDumps (.dict []))) :=
  ⟨claim_C6.1 PyVal.none rfl, claim_C6.2.1 [("results", .list [])] rfl⟩

/-- C7: on a response whose results list is the encoding of a nonempty
list of name and place-id pairs, place_nearby serializes the mapping built
by iterating the candidates in order with Python dict assignment, and that
mapping answers every name with the place id of the last candidate bearing
it (later candidates overwrite earlier ones). -/
theorem claim_C7 (ps : List (String × String)) (hps : ps ≠ []) :
    Server.place_nearby (.dict [("results", .list (ps.map nearbyEncode))]) =
      .ok (some (jsonDumps (.dict (nearbyFold ps))))
    ∧ (∀ nm : String, pyLookup (nearbyFold ps) nm =
        match ps.reverse.find? (fun p => p.1 == nm) with
        | some p => some (.str p.2)
        | Option.none => Option.none) := by
  constructor
  · rw [Server.place_nearby]
    simp [pyGet, pyLookup, PyVal.truthy, place_nearby_loop_encode, bind,
      Except.bind, pure, Except.pure, nearbyFold]
  · intro nm
    rw [nearbyFold, nearbyFold_lookup_gen]
    cases ps.reverse.find? (fun p => p.1 == nm) with
    | some q => rfl
    | none => rfl

/-- Witness for C7 at two candidates sharing one name: the mapping holds
the second candidate's place id under that name. -/
theorem claim_C7_witness :
    Server.place_nearby (.dict [("results",
      .list ([("Cafe", "id1"), ("Cafe", "id2")].map nearbyEncode))]) =
      .ok (some (jsonDumps (.dict (nearbyFold [("Cafe", "id1"), ("Cafe", "id2")]))))
    ∧ pyLookup (nearbyFold [("Cafe", "id1"), ("Cafe", "id2")]) "Cafe" =
        some (.str "id2") :=
  ⟨(claim_C7 [("Cafe", "id1"), ("Cafe", "id2")] (by decide)).1, rfl⟩

/-- C8: the text normalizer strip_html_regex is idempotent: a second
application changes nothing, since the first leaves no completable tag and
no run of two spaces. -/
theorem claim_C8 (s : String) :
    strip_html_regex (strip_html_regex s) = strip_html_regex s := by
  show String.mk (spaceSub (tagSub (String.mk (spaceSub (tagSub s.data))).data)) =
    String.mk (spaceSub (tagSub s.data))
  have hdata : (String.mk (spaceSub (tagSub s.data))).data =
      spaceSub (tagSub s.data) := rfl
  rw [hdata, tagSub_strip_output, spaceSub_idem]

/-- C9 counterexample: the normalizer replaces each tag by a space rather
than deleting it, so the spec's example input yields a string with a
leading and a trailing space, not the claimed "Turn left". -/
theorem claim_C9_counterexample :
    strip_html_regex "<b>Turn  left</b>" = " Turn left "
    ∧ " Turn left " ≠ "Turn left" := by
  constructor
  · rfl
  · decide

/-- C9 as amended: strip_html_regex replaces every completable tag by one
space and collapses runs of two or more spaces to one, so its output has no
completable tag and no two adjacent spaces; on the spec's example the
output is " Turn left ", carrying a leading and a trailing space where the
tags stood. -/
theorem claim_C9_theorem :
    (∀ s : String, noTag (strip_html_regex s).data = true
      ∧ noDoubleSpace (strip_html_regex s).data = true)
    ∧ strip_html_regex "<b>Turn  left</b>" = " Turn left " := by
  refine ⟨fun s => ⟨?_, ?_⟩, rfl⟩
  · show noTag (spaceSub (tagSub s.data)) = true
    exact noTag_spaceSub _ (noTag_tagSub s.data)
  · exact noDoubleSpace_spaceSub (tagSub s.data)

/-- C10 counterexample: the no-such-place sentinel is not produced only
from an empty candidates list: on a response whose candidates value is the
empty string, Python subscripting raises IndexError as well (there is no
candidates list at all), and find_place returns the sentinel. -/
theorem claim_C10_counterexample :
    Server.find_place "textquery" (.dict [("candidates", .str "")]) =
      (.ok (some "No such place found"), true)
    ∧ pyLookup [("candidates", PyVal.str "")] "candidates" ≠ some (.list []) := by
  constructor
  · have htq : ("textquery" ∈ Server.allowed_input_types) := by decide
    rw [Server.find_place, if_pos htq]
    rfl
  · simp [pyLookup]

/-- C10 as amended: find_place returns Python None on every falsy provider
response at a valid input type, because its body has no branch for that
case; and whenever it returns the no-such-place sentinel, the response was
a dict whose candidates value raised IndexError at subscript 0 — an empty
list or an empty string — never a falsy response. -/
theorem claim_C10_theorem :
    (∀ (input_type : String) (resp : PyVal),
      input_type ∈ Server.allowed_input_types → resp.truthy = false →
      Server.find_place input_type resp = (.ok Option.none, true))
    ∧ (∀ (input_type : String) (resp : PyVal) (b : Bool),
      input_type ∈ Server.allowed_input_types →
      Server.find_place input_type resp = (.ok (some "No such place found"), b) →
      ∃ d : List (String × PyVal), resp = .dict d
        ∧ (pyLookup d "candidates" = some (.list [])
           ∨ pyLookup d "candidates" = some (.str ""))) := by
  constructor
  · intro input_type resp hit h
    rw [Server.find_place, if_pos hit]
    simp [Server.find_place_body, h, pure, Except.pure]
  · intro input_type resp b hit h
    rw [Server.find_place, if_pos hit] at h
    have hb : Server.find_place_body resp = .ok (some "No such place found") :=
      congrArg Prod.fst h
    clear h
    cases resp with
    | dict d =>
      cases d with
      | nil => simp [Server.find_place_body, PyVal.truthy, pure, Except.pure] at hb
      | cons kv kvs =>
        rw [Server.find_place_body] at hb
        simp only [PyVal.truthy, List.isEmpty_cons, Bool.not_false, if_true,
          pyGet, bind, Except.bind] at hb
        cases hc : pyLookup (kv :: kvs) "candidates" with
        | none => simp [hc, pyIndex0] at hb
        | some v =>
          cases v with
          | list l =>
            cases l with
            | nil => exact ⟨kv :: kvs, rfl, Or.inl hc⟩
            | cons x xs =>
              rw [hc] at hb
              simp only [Option.getD_some, pyIndex0] at hb
              rcases find_place_output_shape x with ⟨e, he⟩ | ⟨dd, he⟩
              · rw [he] at hb
                cases e <;> simp at hb
              · rw [he] at hb
                simp only [Except.ok.injEq, Option.some.injEq] at hb
                exact absurd hb (jsonDumps_dict_ne_of_head (by decide) dd)
          | str s =>
            obtain ⟨cs⟩ := s
            cases cs with
            | nil => exact ⟨kv :: kvs, rfl, Or.inr hc⟩
            | cons c cs' =>
              rw [hc] at hb
              simp only [Option.getD_some, pyIndex0] at hb
              rcases find_place_output_shape (.str (String.singleton c))
                with ⟨e, he⟩ | ⟨dd, he⟩
              · rw [he] at hb
                cases e <;> simp at hb
              · rw [he] at hb
                simp only [Except.ok.injEq, Option.some.injEq] at hb
                exact absurd hb (jsonDumps_dict_ne_of_head (by decide) dd)
          | none => simp [hc, pyIndex0] at hb
          | int n => simp [hc, pyIndex0] at hb
          | dict dd => simp [hc, pyIndex0] at hb
    | none => simp [Server.find_place_body, PyVal.truthy, pure, Except.pure] at hb
    | int n =>
      rw [Server.find_place_body] at hb
      by_cases hn : (PyVal.int n).truthy
      · simp [hn, pyGet, bind, Except.bind] at hb
      · simp [Bool.not_eq_true] at hn
        simp [hn, pure, Except.pure] at hb
    | str s =>
      rw [Server.find_place_body] at hb
      by_cases hn : (PyVal.str s).truthy
      · simp [hn, pyGet, bind, Except.bind] at hb
      · simp [Bool.not_eq_true] at hn
        simp [hn, pure, Except.pure] at hb
    | list l =>
      cases l with
      | nil => simp [Server.find_place_body, PyVal.truthy, pure, Except.pure] at hb
      | cons x xs =>
        simp [Server.find_place_body, PyVal.truthy, pyGet, bind, Except.bind] at hb

/-- Witness for C10: a None response with input type textquery returns
Python None, and the sentinel at an empty candidates list lands in the
empty-list arm of the characterization. -/
theorem claim_C10_witness :
    Server.find_place "textquery" PyVal.none = (.ok Option.none, true)
    ∧ ∃ d : List (String × PyVal),
        (PyVal.dict [("candidates", PyVal.list [])] : PyVal) = .dict d
        ∧ (pyLookup d "candidates" = some (.list [])
           ∨ pyLookup d "candidates" = some (.str "")) :=
  ⟨claim_C10_theorem.1 "textquery" PyVal.none (by decide) rfl,
   claim_C10_theorem.2 "textquery" (.dict [("candidates", .list [])]) true
     (by decide) rfl⟩
